import Mathlib

/-!
# Verification of the Continuous Multi-User Discovery Engine

Shallow embedding of the core modules of the job-discovery system
(`src/continuous_search_engine.py`, `src/linkedin_scraper_free.py`,
`src/multi_user_system.py`) together with proofs and refutations of the
specification's testable properties.

Modelling conventions:
* Python strings are Lean `String`s; the Python substring test `a in b`
  (after `.lower()`) is `containsSub`.
* Wall-clock instants are `Int` seconds; `datetime.now()` inside a function
  becomes an explicit `now : Int` parameter threaded to the call site.
  `timedelta.days` (floor division of the second difference) is `Int.fdiv`.
* The SQLite tables become lists of records; `INSERT OR IGNORE` becomes a
  membership test on the table's UNIQUE columns; `uuid4` row ids become a
  fresh-id counter on the database state.
* Network responses of the upstream source are an oracle `Nat → Resp`
  indexed by the running request count.
-/

set_option autoImplicit false

namespace JobSprint

/-- Substring test on lists of characters: `needle` occurs contiguously in
`hay`.  The empty needle occurs in every string, as with Python's `in`. -/
def subListOf (needle : List Char) : List Char → Bool
  | [] => needle.isEmpty
  | c :: t => needle.isPrefixOf (c :: t) || subListOf needle t

/-- Python's `needle in hay` on strings. -/
def containsSub (hay needle : String) : Bool :=
  subListOf needle.data hay.data

/-- Python's `str.lower()` (ASCII case folding suffices for the inputs the
engine compares). -/
def strToLower (s : String) : String :=
  ⟨s.data.map Char.toLower⟩

/-- `UserPreferences` dataclass of `multi_user_system.py` (fields used by the
search engine). -/
structure UserPreferences where
  user_id : String := ""
  keywords : List String := []
  exclude_keywords : List String := []
  locations : List String := []
  min_salary : Int := 80000
  max_salary : Int := 200000
  sites_enabled : List String := ["linkedin"]
  search_frequency_minutes : Nat := 15
  linkedin_quality_threshold : Int := 65
  max_hours_old : Nat := 24
  time_filter : String := "r3600"
  work_type : String := "2"
  ultra_recent_mode : Bool := false
  first_applicant_mode : Bool := false
  deriving DecidableEq

/-- One row of the scraped jobs frame handed to scoring / filtering /
persistence.  `posted_date` is the parsed posting instant in seconds
(`none` when the field is missing or fails to parse, in which case the code
falls through without a freshness bonus).  `quality_score` is the column
added by the cycle before filtering. -/
structure JobRow where
  title : String := ""
  company : String := ""
  location : String := ""
  salary_min : Option Int := none
  salary_max : Option Int := none
  job_url : String := ""
  description : String := ""
  site_source : String := "linkedin"
  quality_score : Int := 0
  posted_date : Option Int := none
  deriving DecidableEq

/-! ## Scoring engine (`ContinuousSearchEngine.calculate_quality_score`) -/

/-- The static allow-list of well-known employer fragments
(line 300 of `continuous_search_engine.py`). -/
def reputable_companies : List String :=
  ["google", "microsoft", "amazon", "apple", "meta", "netflix", "uber", "airbnb"]

/-- The keyword-counting loop: number of include keywords whose lowercase
form occurs in the lowercase title. -/
def keywordMatchCount (keywords : List String) (title : String) : Nat :=
  keywords.foldl (fun n k => if containsSub title (strToLower k) then n + 1 else n) 0

/-- The exclude-keyword loop: each matching exclude keyword subtracts 20
from the running score. -/
def excludePenaltyFold (excl : List String) (title : String) (score : Int) : Int :=
  excl.foldl (fun s ex => if containsSub title (strToLower ex) then s - 20 else s) score

/-- The freshness branch: `days_old = (now - posted).days`, +10 within one
day, +5 within three days, nothing when the date is absent. -/
def freshnessBonus (posted_date : Option Int) (now : Int) : Int :=
  match posted_date with
  | none => 0
  | some d =>
    let days_old : Int := Int.fdiv (now - d) 86400
    if days_old ≤ 1 then 10 else if days_old ≤ 3 then 5 else 0

/-- `ContinuousSearchEngine.calculate_quality_score` (lines 275-328).
`now` is the instant read by the function's internal `datetime.now()`
call, made explicit by the embedding. -/
def calculate_quality_score (job : JobRow) (preferences : UserPreferences)
    (now : Int) : Int :=
  let score : Int := 50
  let title := (strToLower job.title)
  let company := (strToLower job.company)
  let location := (strToLower job.location)
  let keyword_matches := keywordMatchCount preferences.keywords title
  let score := if keyword_matches > 0
    then score + min 30 ((keyword_matches : Int) * 10) else score
  let score := if preferences.locations.any
      (fun l => containsSub location (strToLower l)) then score + 20 else score
  let score := if reputable_companies.any
      (fun comp => containsSub company comp) then score + 10 else score
  let score := score + freshnessBonus job.posted_date now
  let score := excludePenaltyFold preferences.exclude_keywords title score
  min 100 (max 0 score)

/-- Number of exclude keywords occurring in the lowercase title. -/
def excludeMatchCount (excl : List String) (title : String) : Nat :=
  excl.countP (fun ex => containsSub title (strToLower ex))

/-- The additive part of the score that does not depend on the clock:
baseline, keyword bonus, location bonus, employer bonus, exclude penalty. -/
def scoreBase (job : JobRow) (preferences : UserPreferences) : Int :=
  let title := (strToLower job.title)
  50
    + (if keywordMatchCount preferences.keywords title > 0
        then min 30 ((keywordMatchCount preferences.keywords title : Int) * 10) else 0)
    + (if preferences.locations.any
        (fun l => containsSub (strToLower job.location) (strToLower l)) then 20 else 0)
    + (if reputable_companies.any
        (fun comp => containsSub (strToLower job.company) comp) then 10 else 0)
    - 20 * (excludeMatchCount preferences.exclude_keywords title : Int)

/-- Score written exactly as the specification's words put it: a single
−20 penalty "if any exclude keyword appears in the title" (instead of the
code's −20 per matching exclude keyword). -/
def specScoreAnyExclude (job : JobRow) (preferences : UserPreferences)
    (now : Int) : Int :=
  let title := (strToLower job.title)
  let base : Int := 50
    + (if keywordMatchCount preferences.keywords title > 0
        then min 30 ((keywordMatchCount preferences.keywords title : Int) * 10) else 0)
    + (if preferences.locations.any
        (fun l => containsSub (strToLower job.location) (strToLower l)) then 20 else 0)
    + (if reputable_companies.any
        (fun comp => containsSub (strToLower job.company) comp) then 10 else 0)
    + freshnessBonus job.posted_date now
    - (if preferences.exclude_keywords.any
        (fun ex => containsSub title (strToLower ex)) then 20 else 0)
  min 100 (max 0 base)

/-! ## Filtering (`ContinuousSearchEngine.filter_jobs_for_user`) -/

/-- `ContinuousSearchEngine.filter_jobs_for_user` (lines 330-362): drop
below-threshold scores, then rows whose present minimum salary is below the
user's floor (rows with no salary are retained), then rows whose title
contains any exclude keyword case-insensitively.  The trailing job-age
branch of the source computes a cutoff but filters nothing
("simplified for now"), so it is a no-op here as there. -/
def filter_jobs_for_user (jobs : List JobRow) (preferences : UserPreferences) :
    List JobRow :=
  let filtered := jobs.filter
    (fun j => preferences.linkedin_quality_threshold ≤ j.quality_score)
  let filtered := if 0 < preferences.min_salary then
      filtered.filter (fun j =>
        match j.salary_min with
        | none => true
        | some s => preferences.min_salary ≤ s)
    else filtered
  let filtered := if preferences.exclude_keywords.isEmpty then filtered
    else filtered.filter (fun j =>
      !(preferences.exclude_keywords.any
        (fun ex => containsSub (strToLower j.title) (strToLower ex))))
  filtered

/-! ## Rate Gateway (`ContinuousSearchEngine.check_rate_limit`) -/

/-- `ContinuousSearchEngine.check_rate_limit` (lines 257-273), the state
being `self.linkedin_last_requests` (a list of call instants, seconds):
prune instants at distance ≥ 60 s from `now`, refuse when the pruned window
has reached the per-minute ceiling, otherwise record `now` and accept. -/
def check_rate_limit (limit : Nat) (now : Int) (last_requests : List Int) :
    Bool × List Int :=
  let pruned := last_requests.filter (fun t => now - t < 60)
  if limit ≤ pruned.length then (false, pruned)
  else (true, pruned ++ [now])

/-- A sequence of `acquire()` calls at the given instants, threading the
recorded-timestamp state; returns the number of calls that observed `true`
and the final state. -/
def acquireRun (limit : Nat) : List Int → List Int → Nat × List Int
  | [], st => (0, st)
  | t :: ts, st =>
    let r := check_rate_limit limit t st
    let rest := acquireRun limit ts r.2
    ((if r.1 then 1 else 0) + rest.1, rest.2)

/-! ## Source Adapter (`LinkedInScraperFree.method_1_guest_api`) -/

/-- One upstream HTTP response as the pagination loop distinguishes them:
HTTP 429, any other non-200 status, or a 200 page of already-parsed job
cards (the card list may be empty). -/
inductive Resp where
  | rate429 : Resp
  | httpErr : Nat → Resp
  | page : List JobRow → Resp
  deriving DecidableEq

/-- The inner card loop of `method_1_guest_api`: append parsed cards until
`max_results` is reached. -/
def takeCards (jobs cards : List JobRow) (max_results : Nat) : List JobRow :=
  jobs ++ cards.take (max_results - jobs.length)

/-- The pagination loop of `LinkedInScraperFree.method_1_guest_api`
(lines 131-192), with the network as a response oracle indexed by the
running request count and explicit fuel bounding the number of loop
iterations we observe.  Returns `(some jobs, requestCount)` when the loop
exits within `fuel` iterations and `(none, requestCount)` when it is still
running; faithfully to the source, a 429 response sleeps and retries
without changing `jobs` or `start`, any other non-200 or an empty page
breaks, and a non-empty page advances `start` by 25. -/
def method1Loop (responses : Nat → Resp) (max_results : Nat) :
    Nat → List JobRow → Nat → Nat → Option (List JobRow) × Nat
  | fuel, jobs, start, reqs =>
    if jobs.length < max_results ∧ start < 200 then
      match fuel with
      | 0 => (none, reqs)
      | fuel' + 1 =>
        match responses reqs with
        | Resp.rate429 => method1Loop responses max_results fuel' jobs start (reqs + 1)
        | Resp.httpErr _ => (some jobs, reqs + 1)
        | Resp.page cards =>
          if cards.isEmpty then (some jobs, reqs + 1)
          else method1Loop responses max_results fuel'
            (takeCards jobs cards max_results) (start + 25) (reqs + 1)
    else (some jobs, reqs)

/-- `method_1_guest_api` run from the initial state (`jobs = []`,
`start = 0`). -/
def method_1_guest_api (responses : Nat → Resp) (max_results fuel : Nat) :
    Option (List JobRow) × Nat :=
  method1Loop responses max_results fuel [] 0 0

/-- The pagination loop eventually exits for some amount of fuel. -/
def method1Terminates (responses : Nat → Resp) (max_results : Nat) : Prop :=
  ∃ fuel, (method_1_guest_api responses max_results fuel).1.isSome

/-- A source that is persistently rate limited: every request answers 429. -/
def alwaysRate429 : Nat → Resp := fun _ => Resp.rate429

/-! ## The request-issuing portion of a user cycle
(`ContinuousSearchEngine.search_jobs_for_user`, lines 151-228) -/

/-- The (keyword, location) pairs a cycle iterates over: first 3 keywords
by first 2 locations. -/
def cyclePairs (preferences : UserPreferences) : List (String × String) :=
  (preferences.keywords.take 3).flatMap
    (fun k => (preferences.locations.take 2).map (fun l => (k, l)))

/-- The upstream-request portion of `search_jobs_for_user`: one
`check_rate_limit` call guards the whole cycle (line 152); when it refuses,
the cycle returns issuing no requests; when it accepts, every
(keyword × location) pair with LinkedIn enabled runs
`method_1_guest_api` with `max_results = 10`.  `oracle i` is the response
stream seen by the `i`-th pair's adapter call.  Returns (number of
`acquire()` calls that returned true, number of HTTP requests issued to the
source, rate state after the cycle). -/
def cycleRequests (preferences : UserPreferences) (limit : Nat) (now : Int)
    (last_requests : List Int) (oracle : Nat → Nat → Resp) (fuel : Nat) :
    Nat × Nat × List Int :=
  let gate := check_rate_limit limit now last_requests
  if gate.1 then
    let reqs := (List.range (cyclePairs preferences).length).foldl
      (fun n i =>
        if preferences.sites_enabled.contains "linkedin" then
          n + (method_1_guest_api (oracle i) 10 fuel).2
        else n) 0
    (1, reqs, gate.2)
  else (0, 0, gate.2)

/-! ## Record Store (`multi_user_system.py` SQLite schema) and the
deduplication / persistence step -/

/-- One row of the `jobs` table (schema in
`MultiUserManager.init_database`; `UNIQUE(external_id, site_source)`).
Row ids (`uuid4` in the source) are modelled by a fresh-id counter. -/
structure JobRec where
  jid : Nat
  external_id : String
  title : String
  company : String
  location : String
  salary_min : Option Int
  salary_max : Option Int
  job_url : String
  description : String
  site_source : String
  quality_score : Int
  posted_date : Option Int
  deriving DecidableEq

/-- One row of the `user_jobs` table (`UNIQUE(user_id, job_id)`). -/
structure UserJobRec where
  ujid : Nat
  user_id : String
  job_id : Nat
  match_score : Int
  is_notified : Bool
  is_applied : Bool
  is_saved : Bool
  is_hidden : Bool
  deriving DecidableEq

/-- The database state: the two tables touched by the engine plus the
fresh-id counter standing in for `uuid4`. -/
structure DB where
  jobs : List JobRec
  user_jobs : List UserJobRec
  nextId : Nat
  deriving DecidableEq

/-- `MultiUserManager.get_user_job_status` (lines 517-549): the join of
`user_jobs` with `jobs` on `job_id`, selecting this user's row for the
posting with this source URL. -/
def get_user_job_status (db : DB) (user_id job_url : String) :
    Option UserJobRec :=
  db.user_jobs.find? (fun uj => uj.user_id == user_id &&
    db.jobs.any (fun j => j.jid == uj.job_id && j.job_url == job_url))

/-- `ContinuousSearchEngine.get_existing_job_id` (lines 471-485). -/
def get_existing_job_id (db : DB) (job_url : String) : Option Nat :=
  (db.jobs.find? (fun j => j.job_url == job_url)).map (fun j => j.jid)

/-- The `job_data` dict built at lines 387-399 of `save_jobs_for_user`. -/
structure JobData where
  external_id : String
  title : String
  company : String
  location : String
  salary_min : Option Int
  salary_max : Option Int
  job_url : String
  description : String
  site_source : String
  quality_score : Int
  posted_date : Option Int
  deriving DecidableEq

/-- Lines 387-399: the dict handed to `save_job_to_db`, with
`external_id` set to the job URL. -/
def jobDataOfRow (job : JobRow) : JobData :=
  { external_id := job.job_url
    title := job.title
    company := job.company
    location := job.location
    salary_min := job.salary_min
    salary_max := job.salary_max
    job_url := job.job_url
    description := job.description
    site_source := job.site_source
    quality_score := job.quality_score
    posted_date := job.posted_date }

/-- `ContinuousSearchEngine.save_job_to_db` (lines 427-469):
`INSERT OR IGNORE` into `jobs` — ignored exactly when a row with the same
`(external_id, site_source)` already exists, in which case the id of the
existing row with this `job_url` is returned (`none` when there is none
either); otherwise a fresh row is inserted and its id returned. -/
def save_job_to_db (db : DB) (job_data : JobData) : Option Nat × DB :=
  if db.jobs.any (fun j => j.external_id == job_data.external_id &&
      j.site_source == job_data.site_source) then
    (get_existing_job_id db job_data.job_url, db)
  else
    let row : JobRec :=
      { jid := db.nextId
        external_id := job_data.external_id
        title := job_data.title
        company := job_data.company
        location := job_data.location
        salary_min := job_data.salary_min
        salary_max := job_data.salary_max
        job_url := job_data.job_url
        description := job_data.description
        site_source := job_data.site_source
        quality_score := job_data.quality_score
        posted_date := job_data.posted_date }
    (some db.nextId, { db with jobs := db.jobs ++ [row], nextId := db.nextId + 1 })

/-- `ContinuousSearchEngine.create_user_job_relationship` (lines 487-514):
`INSERT OR IGNORE` into `user_jobs` — ignored when a `(user_id, job_id)`
row already exists; the flags are inserted as 0 (`is_notified = false`).
Returns `true` whether the row was inserted or already existed (the
source's `return True  # Return True even if relationship already exists`);
database exceptions are outside the model. -/
def create_user_job_relationship (db : DB) (user_id : String) (job_id : Nat)
    (match_score : Int) : Bool × DB :=
  if db.user_jobs.any (fun uj => uj.user_id == user_id && uj.job_id == job_id)
  then (true, db)
  else
    let row : UserJobRec :=
      { ujid := db.nextId
        user_id := user_id
        job_id := job_id
        match_score := match_score
        is_notified := false
        is_applied := false
        is_saved := false
        is_hidden := false }
    (true, { db with user_jobs := db.user_jobs ++ [row], nextId := db.nextId + 1 })

/-- The body of the per-row loop of
`ContinuousSearchEngine.save_jobs_for_user` (lines 373-422): skip rows with
an empty source URL, skip rows already linked to the user, otherwise save
the posting and create the user-job link, reporting the row as net-new
exactly when both steps succeeded. -/
def saveJobStep (user_id : String) (db : DB) (job : JobRow) :
    Option JobRow × DB :=
  if job.job_url == "" then (none, db)
  else
    match get_user_job_status db user_id job.job_url with
    | some _ => (none, db)
    | none =>
      let saved := save_job_to_db db (jobDataOfRow job)
      match saved.1 with
      | none => (none, saved.2)
      | some job_id =>
        let rel := create_user_job_relationship saved.2 user_id job_id
          job.quality_score
        if rel.1 then (some job, rel.2) else (none, rel.2)

/-- `ContinuousSearchEngine.save_jobs_for_user` (lines 364-425): process
the rows in order, returning the net-new rows and the updated store. -/
def save_jobs_for_user (user_id : String) : List JobRow → DB →
    List JobRow × DB
  | [], db => ([], db)
  | job :: rest, db =>
    let step := saveJobStep user_id db job
    let tail := save_jobs_for_user user_id rest step.2
    match step.1 with
    | some j => (j :: tail.1, tail.2)
    | none => (tail.1, tail.2)

/-! ## Notification Dispatcher
(`ContinuousSearchEngine.send_job_notifications`, lines 516-543) -/

/-- `send_job_notifications`, with the transport outcome made explicit:
`emailConfigured` is `config['email']['sender_email']` being set and
`sendOk` is whether `send_email` raises.  Returns the store afterwards and
whether a digest was sent.  Faithfully to the source, the
"Mark jobs as notified" loop (lines 535-538) has a `pass` body, so the
store is returned unchanged on every path — no `is_notified` flag is ever
set; a raising `send_email` is caught by the enclosing `except`, so a
failed send also leaves the store unchanged and reports no digest. -/
def send_job_notifications (db : DB) (jobs : List JobRow)
    (emailConfigured sendOk : Bool) : DB × Bool :=
  if jobs.isEmpty then (db, false)
  else if !emailConfigured then (db, false)
  else if sendOk then (db, true)
  else (db, false)

/-- The dedup-and-notify tail of a cycle (`search_jobs_for_user`,
lines 237-247): save the combined rows, then dispatch notifications only
when the net-new set is non-empty. -/
def runDedupNotify (user_id : String) (rows : List JobRow) (db : DB)
    (emailConfigured sendOk : Bool) : List JobRow × DB × Bool :=
  let saved := save_jobs_for_user user_id rows db
  if saved.1.length > 0 then
    let sent := send_job_notifications saved.2 saved.1 emailConfigured sendOk
    (saved.1, sent.1, sent.2)
  else (saved.1, saved.2, false)

/-! ## Scheduling Coordinator
(`ContinuousSearchEngine.schedule_user_searches` and `run_scheduler`) -/

/-- A user row as far as scheduling is concerned. -/
structure SchedUser where
  id : String
  email : String
  is_active : Bool
  deriving DecidableEq

/-- One job registered with the `schedule` library.  `schedule.every(n)
.minutes.do(...)` fires first `n` minutes after registration and every `n`
minutes thereafter; no other first-fire offset can be expressed by that
call. -/
structure SchedJob where
  periodMinutes : Nat
  firstFireOffsetMinutes : Nat
  tag : String
  deriving DecidableEq

/-- Line 109 of `schedule_user_searches`:
`delay_minutes = hash(user.id) % frequency`. -/
def delay_minutes (userHash frequency : Nat) : Nat :=
  userHash % frequency

set_option linter.unusedVariables false in
/-- `ContinuousSearchEngine.schedule_user_searches` (lines 95-116): for
every active user with preferences, register
`schedule.every(frequency).minutes` tagged with the user id.  `userHash`
stands for Python's opaque `hash`.  As in the source, `delay_minutes` is
computed (line 109) and then never applied to the registered job. -/
def schedule_user_searches (userHash : String → Nat)
    (users : List (SchedUser × Option UserPreferences)) : List SchedJob :=
  (users.filter (fun u => u.1.is_active)).flatMap (fun u =>
    match u.2 with
    | none => []
    | some preferences =>
      let frequency := preferences.search_frequency_minutes
      let delay_minutes := delay_minutes (userHash u.1.id) frequency
      [{ periodMinutes := frequency
         firstFireOffsetMinutes := frequency
         tag := "user_" ++ u.1.id }])

/-- `run_scheduler` (lines 118-130) polls all due timers in one loop,
sleeping a fixed 30 seconds per tick. -/
def schedulerTickSeconds : Nat := 30

/-! ## Helper lemmas for the scoring engine -/

/-- The sequential exclude-keyword loop subtracts 20 for each matching
exclude keyword. -/
lemma excludePenaltyFold_eq (excl : List String) (title : String) :
    ∀ score : Int, excludePenaltyFold excl title score =
      score - 20 * (excludeMatchCount excl title : Int) := by
  induction excl with
  | nil => intro s; simp [excludePenaltyFold, excludeMatchCount]
  | cons e es ih =>
    intro s
    simp only [excludePenaltyFold, List.foldl_cons] at ih ⊢
    rw [ih]
    simp only [excludeMatchCount, List.countP_cons] at ih ⊢
    by_cases h : containsSub title (strToLower e) = true
    · simp only [if_pos h, h]
      push_cast
      ring
    · simp only [if_neg h, h]
      simp

/-- The quality score decomposes into a clock-independent base plus the
freshness bonus, clamped. -/
lemma score_decomp (job : JobRow) (p : UserPreferences) (now : Int) :
    calculate_quality_score job p now =
      min 100 (max 0 (scoreBase job p + freshnessBonus job.posted_date now)) := by
  simp only [calculate_quality_score, scoreBase, excludePenaltyFold_eq]
  split_ifs <;> (congr 1; congr 1; ring)

/-! ## Concrete instances used by counterexamples and witnesses -/

/-- The empty store. -/
def dbEmpty : DB := { jobs := [], user_jobs := [], nextId := 0 }

/-- A posting whose title matches three include keywords and two exclude
keywords, with a matching location, an allow-listed employer, and a fresh
posting date. -/
def c5job : JobRow :=
  { title := "Senior Python Developer Intern Junior"
    company := "Google"
    location := "Remote"
    job_url := "https://example.com/jobs/1"
    posted_date := some 0 }

/-- Criteria with three include keywords and two exclude keywords that all
occur in `c5job`'s title. -/
def c5prefs : UserPreferences :=
  { keywords := ["python", "developer", "senior"]
    exclude_keywords := ["intern", "junior"]
    locations := ["remote"] }

/-- A posting whose score depends on the freshness bonus. -/
def c6job : JobRow :=
  { title := "Python Dev"
    company := "Acme"
    location := "Toronto"
    job_url := "https://example.com/jobs/2"
    posted_date := some 0 }

/-- Criteria for the clock-dependence counterexample. -/
def c6prefs : UserPreferences :=
  { keywords := ["python"], locations := ["remote"] }

/-! ## C5 — quality-score formula -/

/-- Claim C5 (counterexample): the claim's formula subtracts a single 20
"if any exclude keyword appears in the title", but the code's loop
subtracts 20 for each matching exclude keyword.  On `c5job` / `c5prefs`
(three keyword matches, location match, allow-listed employer, fresh, two
matching exclude keywords) the code computes
50+30+20+10+10−40 = 80 while the claim's formula computes
min(100, 50+30+20+10+10−20) = 100. -/
theorem c5_score_spec_counterexample :
    specScoreAnyExclude c5job c5prefs 0 = 100
    ∧ calculate_quality_score c5job c5prefs 0 = 80
    ∧ calculate_quality_score c5job c5prefs 0 ≠ specScoreAnyExclude c5job c5prefs 0 := by
  refine ⟨by decide, by decide, by decide⟩

/-- Claim C5 (amended): for every posting and criteria the computed quality
score equals 50, plus `min 30 (10·k)` when `k > 0` include keywords match
the title, plus 20 on a location match, plus 10 on an allow-listed
employer, plus the freshness bonus (10 within one day, 5 within three),
minus 20 for EACH exclude keyword appearing in the title, clamped to
[0, 100]. -/
theorem c5_score_formula_amended (job : JobRow) (p : UserPreferences) (now : Int) :
    calculate_quality_score job p now =
      min 100 (max 0
        (50
         + (if keywordMatchCount p.keywords (strToLower job.title) > 0
            then min 30 ((keywordMatchCount p.keywords (strToLower job.title) : Int) * 10)
            else 0)
         + (if p.locations.any
              (fun l => containsSub (strToLower job.location) (strToLower l)) then 20 else 0)
         + (if reputable_companies.any
              (fun comp => containsSub (strToLower job.company) comp) then 10 else 0)
         + freshnessBonus job.posted_date now
         - 20 * (excludeMatchCount p.exclude_keywords (strToLower job.title) : Int))) := by
  rw [score_decomp]
  simp only [scoreBase]
  congr 1
  congr 1
  ring

/-! ## C6 — clock dependence of the scoring function -/

/-- Claim C6 (counterexample): the source's `calculate_quality_score` takes
only `(job_row, preferences)` and reads `datetime.now()` internally
(line 311), so the claimed signature `score(posting, criteria, now)` does
not exist; evaluating the function twice on identical `(posting, criteria)`
arguments with the ambient clock at 0 and at 5 days later yields 70 and
then 60 — the result varies although every source-level argument is
unchanged, refuting "never reads a global clock internally". -/
theorem c6_ambient_clock_counterexample :
    calculate_quality_score c6job c6prefs 0 = 70
    ∧ calculate_quality_score c6job c6prefs 432000 = 60
    ∧ calculate_quality_score c6job c6prefs 0
        ≠ calculate_quality_score c6job c6prefs 432000 := by
  refine ⟨by decide, by decide, by decide⟩

/-- Claim C6 (amended): modelling the internally read clock as an explicit
parameter `now`, the scoring function is a deterministic function of
`(posting, criteria, now)`, `now` enters only through the freshness
component, and two evaluations whose freshness bonuses agree yield equal
scores; the code, however, obtains `now` from a global `datetime.now()`
call inside the function rather than as a caller-supplied argument. -/
theorem c6_clock_only_affects_recency (job : JobRow) (p : UserPreferences)
    (n1 n2 : Int) :
    calculate_quality_score job p n1 =
      min 100 (max 0 (scoreBase job p + freshnessBonus job.posted_date n1))
    ∧ (freshnessBonus job.posted_date n1 = freshnessBonus job.posted_date n2 →
        calculate_quality_score job p n1 = calculate_quality_score job p n2) := by
  refine ⟨score_decomp job p n1, fun h => ?_⟩
  rw [score_decomp, score_decomp, h]

/-- Claim C6 witness: two instants one day apart with equal freshness bonus
give equal scores. -/
theorem c6_clock_only_affects_recency_witness :
    calculate_quality_score c6job c6prefs 0 = calculate_quality_score c6job c6prefs 86400 :=
  (c6_clock_only_affects_recency c6job c6prefs 0 86400).2 (by decide)

/-! ## C8 — filter monotonicity in the quality threshold -/

/-- Claim C8: raising the quality-score threshold (all other criteria
unchanged) never grows the filtered set: every survivor of the higher
threshold survives the lower one, and the surviving count never
increases. -/
theorem c8_filter_threshold_monotone (jobs : List JobRow)
    (p : UserPreferences) (t1 t2 : Int) (h : t1 ≤ t2) :
    (∀ j, j ∈ filter_jobs_for_user jobs { p with linkedin_quality_threshold := t2 } →
        j ∈ filter_jobs_for_user jobs { p with linkedin_quality_threshold := t1 })
    ∧ (filter_jobs_for_user jobs { p with linkedin_quality_threshold := t2 }).length
        ≤ (filter_jobs_for_user jobs { p with linkedin_quality_threshold := t1 }).length := by
  have h1 : List.Sublist (jobs.filter (fun j => decide (t2 ≤ j.quality_score)))
      (jobs.filter (fun j => decide (t1 ≤ j.quality_score))) :=
    List.monotone_filter_right jobs (fun a ha => by
      simp only [decide_eq_true_eq] at ha ⊢
      omega)
  have hsub : List.Sublist
      (filter_jobs_for_user jobs { p with linkedin_quality_threshold := t2 })
      (filter_jobs_for_user jobs { p with linkedin_quality_threshold := t1 }) := by
    simp only [filter_jobs_for_user]
    split
    · split
      · exact h1.filter _
      · exact h1
    · split
      · exact (h1.filter _).filter _
      · exact h1.filter _
  exact ⟨fun j hj => hsub.subset hj, hsub.length_le⟩

/-- A row for the C8 witness. -/
def c8row : JobRow := { title := "Data Engineer", job_url := "https://example.com/jobs/3", quality_score := 70 }

/-- Claim C8 witness: with thresholds 50 ≤ 65 on a concrete row, the
higher-threshold filtrate is no larger. -/
theorem c8_filter_threshold_monotone_witness :
    (filter_jobs_for_user [c8row] { linkedin_quality_threshold := 65 }).length
      ≤ (filter_jobs_for_user [c8row] { linkedin_quality_threshold := 50 }).length :=
  (c8_filter_threshold_monotone [c8row] { linkedin_quality_threshold := 0 }
    50 65 (by decide)).2

/-! ## C10 — rows without a source URL are skipped -/

/-- A row with an empty source URL never changes the store and never
appears in the net-new set. -/
lemma saveJobStep_url_empty (u : String) (db : DB) (job : JobRow)
    (h : job.job_url = "") : saveJobStep u db job = (none, db) := by
  simp [saveJobStep, h]

/-- Claim C10: a job row whose source URL is missing or empty is skipped
entirely by the deduplication-and-persistence step: no posting row, no
user-job link, not in the returned net-new set, and the remaining rows of
the same call are processed exactly as if the bad row were absent. -/
theorem c10_empty_url_skipped (u : String) (xs ys : List JobRow)
    (bad : JobRow) (db : DB) (h : bad.job_url = "") :
    save_jobs_for_user u (xs ++ bad :: ys) db = save_jobs_for_user u (xs ++ ys) db := by
  induction xs generalizing db with
  | nil =>
    simp only [List.nil_append, save_jobs_for_user, saveJobStep_url_empty u db bad h]
  | cons x xs ih =>
    simp only [List.cons_append, save_jobs_for_user, List.append_eq, ih]

/-- A row with no source URL for the C10 witness. -/
def c10bad : JobRow := { title := "Untitled", job_url := "" }

/-- Claim C10 witness: inserting the URL-less row between two good rows
changes nothing. -/
theorem c10_empty_url_skipped_witness :
    save_jobs_for_user "alice" ([c8row] ++ c10bad :: [c5job]) dbEmpty
      = save_jobs_for_user "alice" ([c8row] ++ [c5job]) dbEmpty :=
  c10_empty_url_skipped "alice" [c8row] [c5job] c10bad dbEmpty (by decide)

/-! ## C3 — sliding-window Rate Gateway -/

/-- When every recorded instant and the current instant lie in one
60-second window, the pruning filter removes nothing. -/
lemma window_no_prune {t0 t : Int} (ht : t0 ≤ t ∧ t < t0 + 60)
    (st : List Int) (hst : ∀ s ∈ st, t0 ≤ s ∧ s < t0 + 60) :
    st.filter (fun s => decide (t - s < 60)) = st := by
  apply List.filter_eq_self.mpr
  intro s hs
  have := hst s hs
  simp only [decide_eq_true_eq]
  omega

/-- Within a single 60-second window, the number of accepted `acquire()`
calls plus the recorded backlog never exceeds the ceiling (or the backlog
itself when that is already larger). -/
lemma acquireRun_window_bound (limit : Nat) (t0 : Int) :
    ∀ (times st : List Int), (∀ t ∈ times, t0 ≤ t ∧ t < t0 + 60) →
      (∀ s ∈ st, t0 ≤ s ∧ s < t0 + 60) →
      (acquireRun limit times st).1 + st.length ≤ max limit st.length := by
  intro times
  induction times with
  | nil =>
    intro st _ _
    simp [acquireRun]
  | cons t ts ih =>
    intro st hts hst
    have hwin : t0 ≤ t ∧ t < t0 + 60 := hts t (by simp)
    have hts' : ∀ x ∈ ts, t0 ≤ x ∧ x < t0 + 60 := fun x hx => hts x (by simp [hx])
    have hcr : check_rate_limit limit t st =
        if limit ≤ st.length then (false, st) else (true, st ++ [t]) := by
      simp only [check_rate_limit, window_no_prune hwin st hst]
    by_cases hl : limit ≤ st.length
    · rw [if_pos hl] at hcr
      have hih := ih st hts' hst
      simp [acquireRun, hcr]
      omega
    · rw [if_neg hl] at hcr
      have hst2 : ∀ s ∈ st ++ [t], t0 ≤ s ∧ s < t0 + 60 := by
        intro s hs
        rcases List.mem_append.mp hs with h | h
        · exact hst s h
        · simp at h
          exact h ▸ hwin
      have hih := ih (st ++ [t]) hts' hst2
      simp only [List.length_append, List.length_singleton] at hih
      simp [acquireRun, hcr]
      omega

/-- Claim C3: an `acquire()` call returns true — and records its timestamp
— exactly when the count of recorded instants within the preceding 60
seconds is strictly below the ceiling, returning false (and recording
nothing new) otherwise; consequently a burst of calls all falling inside
one 60-second window observes at most `limit` accepts, every excess call
observing false. -/
theorem c3_rate_gateway_sliding_window :
    (∀ (limit : Nat) (now : Int) (st : List Int),
        ((check_rate_limit limit now st).1 = true ↔
          (st.filter (fun t => now - t < 60)).length < limit)
        ∧ (check_rate_limit limit now st).2 =
            (if (check_rate_limit limit now st).1 = true
             then st.filter (fun t => now - t < 60) ++ [now]
             else st.filter (fun t => now - t < 60)))
    ∧ ∀ (limit : Nat) (t0 : Int) (times : List Int),
        (∀ t ∈ times, t0 ≤ t ∧ t < t0 + 60) →
        (acquireRun limit times []).1 ≤ limit := by
  constructor
  · intro limit now st
    constructor
    · by_cases h : limit ≤ (st.filter (fun t => decide (now - t < 60))).length <;>
        (simp [check_rate_limit, h]; try omega)
    · by_cases h : limit ≤ (st.filter (fun t => decide (now - t < 60))).length <;>
        simp [check_rate_limit, h]
  · intro limit t0 times h
    have := acquireRun_window_bound limit t0 times [] h (by simp)
    simpa using this

/-- Claim C3 witness: a ceiling of 2 with four calls inside one window
accepts at most 2; and a concrete refusal at the ceiling. -/
theorem c3_rate_gateway_sliding_window_witness :
    (acquireRun 2 [0, 10, 20, 30] []).1 ≤ 2
    ∧ (check_rate_limit 2 100 [50, 90]).1 = false :=
  ⟨c3_rate_gateway_sliding_window.2 2 0 [0, 10, 20, 30] (by decide),
   by decide⟩

/-! ## C7 — 429 handling in the pagination loop -/

/-- Under a persistently rate-limited source the pagination loop makes no
progress: every iteration sleeps and retries the same request, leaving
`jobs` and `start` untouched, for any amount of fuel. -/
lemma method1Loop_alwaysRate429_none :
    ∀ (fuel reqs : Nat), (method1Loop alwaysRate429 10 fuel [] 0 reqs).1 = none := by
  intro fuel
  induction fuel with
  | zero =>
    intro reqs
    simp [method1Loop]
  | succ f ih =>
    intro reqs
    simp only [method1Loop, alwaysRate429]
    simpa using ih (reqs + 1)

/-- Claim C7 (counterexample): the source handles HTTP 429 with
`time.sleep(...); continue` and no retry counter (lines 153-156), so
against a source that always answers 429 the pagination loop never
terminates — there is no bounded retry count after which it gives up on
the page. -/
theorem c7_unbounded_retry_counterexample :
    ¬ method1Terminates alwaysRate429 10 := by
  rintro ⟨fuel, h⟩
  simp only [method_1_guest_api] at h
  rw [method1Loop_alwaysRate429_none fuel 0] at h
  simp at h

/-- Whenever the response stream contains no 429, each loop iteration
either breaks or advances the offset by 25, so fuel covering the 200
offset bound suffices for the loop to exit. -/
lemma method1Loop_no429_isSome (responses : Nat → Resp) (max_results : Nat)
    (h : ∀ n, responses n ≠ Resp.rate429) :
    ∀ (fuel : Nat) (jobs : List JobRow) (start reqs : Nat),
      200 ≤ start + 25 * fuel →
      ((method1Loop responses max_results fuel jobs start reqs).1).isSome = true := by
  intro fuel
  induction fuel with
  | zero =>
    intro jobs start reqs hb
    have hc : ¬ (jobs.length < max_results ∧ start < 200) := by
      rintro ⟨-, h2⟩
      omega
    simp [method1Loop, hc]
  | succ f ih =>
    intro jobs start reqs hb
    by_cases hc : jobs.length < max_results ∧ start < 200
    · rw [method1Loop, if_pos hc]
      cases hr : responses reqs with
      | rate429 => exact absurd hr (h reqs)
      | httpErr code => simp
      | page cards =>
        by_cases hce : cards.isEmpty
        · simp [hce]
        · simp only [hce, Bool.false_eq_true, if_false]
          exact ih _ _ _ (by omega)
    · rw [method1Loop, if_neg hc]
      simp

/-- Claim C7 (amended): the 429 backoff is NOT bounded — a persistently
rate-limited request is retried forever — but whenever the source never
answers 429, the pagination loop terminates within 8 iterations (offset
grows by 25 per page up to the 200 bound; every non-200 answer or empty
page breaks immediately). -/
theorem c7_termination_without_429 (responses : Nat → Resp) (max_results : Nat)
    (h : ∀ n, responses n ≠ Resp.rate429) :
    ((method_1_guest_api responses max_results 8).1).isSome = true :=
  method1Loop_no429_isSome responses max_results h 8 [] 0 0 (by omega)

/-- Claim C7 witness: a source that always answers 404 terminates at once. -/
theorem c7_termination_without_429_witness :
    ((method_1_guest_api (fun _ => Resp.httpErr 404) 10 8).1).isSome = true :=
  c7_termination_without_429 (fun _ => Resp.httpErr 404) 10
    (fun _ hr => Resp.noConfusion hr)

/-! ## C4 — Rate Gateway coverage of source requests -/

/-- Preferences with two keywords and one location for the C4
counterexample: one cycle makes 2 adapter calls. -/
def c4prefs : UserPreferences :=
  { keywords := ["python", "java"], locations := ["remote"] }

/-- Claim C4 (counterexample): a cycle calls `check_rate_limit` ONCE
(line 152) and then issues one `method_1_guest_api` call per
(keyword × location) pair, each of which performs at least one HTTP
request with no further `acquire()`: with two keywords and one location a
fresh cycle records 1 successful acquire yet issues 2 source requests, so
"a cycle never issues more source requests than successful acquire()
calls" fails. -/
theorem c4_per_request_gating_counterexample :
    (cycleRequests c4prefs 10 0 [] (fun _ _ => Resp.httpErr 404) 8).1 = 1
    ∧ (cycleRequests c4prefs 10 0 [] (fun _ _ => Resp.httpErr 404) 8).2.1 = 2
    ∧ ¬ ((cycleRequests c4prefs 10 0 [] (fun _ _ => Resp.httpErr 404) 8).2.1
          ≤ (cycleRequests c4prefs 10 0 [] (fun _ _ => Resp.httpErr 404) 8).1) := by
  refine ⟨by decide, by decide, by decide⟩

/-- Claim C4 (amended): the gateway guards the cycle as a whole rather
than each request: the single `acquire()` at the start of
`search_jobs_for_user` gates everything, a refused cycle issues zero
source requests, and a granted cycle may issue several requests under its
one successful acquire. -/
theorem c4_cycle_gating_amended (prefs : UserPreferences) (limit : Nat)
    (now : Int) (st : List Int) (oracle : Nat → Nat → Resp) (fuel : Nat)
    (h : (check_rate_limit limit now st).1 = false) :
    (cycleRequests prefs limit now st oracle fuel).1 = 0
    ∧ (cycleRequests prefs limit now st oracle fuel).2.1 = 0 := by
  simp [cycleRequests, h]

/-- Claim C4 witness: with a ceiling of zero the gateway refuses and the
cycle issues no requests. -/
theorem c4_cycle_gating_amended_witness :
    (cycleRequests c4prefs 0 0 [] (fun _ _ => Resp.httpErr 404) 8).1 = 0
    ∧ (cycleRequests c4prefs 0 0 [] (fun _ _ => Resp.httpErr 404) 8).2.1 = 0 :=
  c4_cycle_gating_amended c4prefs 0 0 [] (fun _ _ => Resp.httpErr 404) 8 (by decide)

/-! ## C9 — per-user stagger that is computed but never applied -/

/-- A user for the C9 evaluation. -/
def schedUser1 : SchedUser := { id := "u1", email := "a@example.com", is_active := true }

/-- Preferences firing every 15 minutes. -/
def prefs15 : UserPreferences := { search_frequency_minutes := 15 }

/-- Claim C9 (code bug): `schedule_user_searches` computes
`delay_minutes = hash(user.id) % frequency` (line 109) under the comment
"Stagger user searches to avoid overwhelming the system" and then never
applies it: the registered timer is `schedule.every(frequency).minutes`
for every user, so the produced schedule is completely independent of the
user-id hash, every same-frequency user first fires `frequency` minutes
after registration with no per-user offset.  The polling loop does tick
every 30 seconds as claimed. -/
theorem c9_stagger_never_applied :
    (∀ (h1 h2 : String → Nat) (users : List (SchedUser × Option UserPreferences)),
        schedule_user_searches h1 users = schedule_user_searches h2 users)
    ∧ schedule_user_searches (fun _ => 7) [(schedUser1, some prefs15)]
        = [{ periodMinutes := 15, firstFireOffsetMinutes := 15, tag := "user_u1" }]
    ∧ delay_minutes 7 15 = 7
    ∧ (7 : Nat) ≠ 15
    ∧ schedulerTickSeconds = 30 :=
  ⟨fun _ _ _ => rfl, by decide, by decide, by decide, rfl⟩

/-! ## C2 — notified flags and at-least-once delivery -/

/-- A net-new posting for the C2 evaluation. -/
def c2row : JobRow :=
  { title := "Platform Engineer"
    company := "Initech"
    job_url := "https://example.com/jobs/9"
    quality_score := 70 }

/-- Claim C2 (code bug): the "Mark jobs as notified" loop of
`send_job_notifications` (lines 535-538) is a `pass` stub, so after a
digest send that reports success every included posting's link still has
`is_notified = 0`; and because the `user_jobs` link is created by
`save_jobs_for_user` BEFORE the send, a posting whose send failed is
deduplicated away in the next cycle and never re-notified — delivery is
at-most-once, not at-least-once.  Concretely: a successful first cycle
sends a digest yet leaves every link un-notified, and a cycle after a
failed send produces no digest for the lost posting. -/
theorem c2_notify_marking_stubbed :
    ((runDedupNotify "alice" [c2row] dbEmpty true true).2.2 = true)
    ∧ ((runDedupNotify "alice" [c2row] dbEmpty true true).2.1.user_jobs.all
        (fun uj => uj.is_notified == false) = true)
    ∧ ((runDedupNotify "alice" [c2row]
          (runDedupNotify "alice" [c2row] dbEmpty true false).2.1 true true).1 = [])
    ∧ ((runDedupNotify "alice" [c2row]
          (runDedupNotify "alice" [c2row] dbEmpty true false).2.1 true true).2.2 = false) := by
  refine ⟨by decide, by decide, by decide, by decide⟩

/-! ## C1 — idempotence of the dedup-and-notify cycle tail -/

/-- The notification dispatcher never touches the store (its marking loop
is a stub). -/
lemma send_job_notifications_db (db : DB) (jobs : List JobRow)
    (c ok : Bool) : (send_job_notifications db jobs c ok).1 = db := by
  simp only [send_job_notifications]
  split_ifs <;> rfl

/-- The store after a dedup-and-notify call is the store after the save
step. -/
lemma runDedupNotify_db (u : String) (rows : List JobRow) (db : DB)
    (c ok : Bool) :
    (runDedupNotify u rows db c ok).2.1 = (save_jobs_for_user u rows db).2 := by
  simp only [runDedupNotify]
  split
  · simp [send_job_notifications_db]
  · rfl

/-- A user-job link for this user joined to a posting with this source
URL exists in the store. -/
def HasLink (db : DB) (user_id job_url : String) : Prop :=
  ∃ uj ∈ db.user_jobs, uj.user_id = user_id ∧
    ∃ j ∈ db.jobs, j.jid = uj.job_id ∧ j.job_url = job_url

/-- The dedup query succeeds exactly when such a joined link exists. -/
lemma get_user_job_status_isSome_iff (db : DB) (u url : String) :
    (get_user_job_status db u url).isSome = true ↔ HasLink db u url := by
  simp [get_user_job_status, HasLink, List.find?_isSome, List.any_eq_true,
    Bool.and_eq_true, beq_iff_eq]

/-- A row already linked to the user is skipped without touching the
store. -/
lemma saveJobStep_of_isSome (u : String) (db : DB) (job : JobRow)
    (h : (get_user_job_status db u job.job_url).isSome = true) :
    saveJobStep u db job = (none, db) := by
  rcases Option.isSome_iff_exists.mp h with ⟨x, hx⟩
  by_cases hurl : job.job_url == ""
  · simp [saveJobStep, hurl]
  · simp [saveJobStep, hurl, hx]

/-- Creating a user-job relationship never changes the jobs table. -/
lemma create_rel_jobs (db : DB) (u : String) (jid : Nat) (s : Int) :
    (create_user_job_relationship db u jid s).2.jobs = db.jobs := by
  simp only [create_user_job_relationship]
  split <;> rfl

/-- Creating a user-job relationship always reports success. -/
lemma create_rel_fst (db : DB) (u : String) (jid : Nat) (s : Int) :
    (create_user_job_relationship db u jid s).1 = true := by
  simp only [create_user_job_relationship]
  split <;> rfl

/-- After creating a relationship, a link row for `(u, jid)` exists. -/
lemma create_rel_hasLink (db : DB) (u : String) (jid : Nat) (s : Int) :
    ∃ uj ∈ (create_user_job_relationship db u jid s).2.user_jobs,
      uj.user_id = u ∧ uj.job_id = jid := by
  simp only [create_user_job_relationship]
  split
  · next h =>
    obtain ⟨uj, hmem, hp⟩ := List.any_eq_true.mp h
    simp only [Bool.and_eq_true, beq_iff_eq] at hp
    exact ⟨uj, hmem, hp.1, hp.2⟩
  · refine ⟨_, List.mem_append_right _ (List.mem_singleton_self _), rfl, rfl⟩

/-- Existing links survive relationship creation. -/
lemma create_rel_user_jobs_mono (db : DB) (u : String) (jid : Nat) (s : Int)
    {uj : UserJobRec} (h : uj ∈ db.user_jobs) :
    uj ∈ (create_user_job_relationship db u jid s).2.user_jobs := by
  simp only [create_user_job_relationship]
  split
  · exact h
  · exact List.mem_append_left _ h

/-- When the URL lookup finds an id, some stored posting row carries that
id and that URL. -/
lemma get_existing_some (db : DB) (url : String) {i : Nat}
    (h : get_existing_job_id db url = some i) :
    ∃ r ∈ db.jobs, r.jid = i ∧ r.job_url = url := by
  simp only [get_existing_job_id, Option.map_eq_some'] at h
  obtain ⟨r, hr, hi⟩ := h
  exact ⟨r, List.mem_of_find?_eq_some hr,
    hi ▸ rfl, by simpa using List.find?_some hr⟩

/-- Saving a posting never changes the links table. -/
lemma save_job_to_db_user_jobs (db : DB) (jd : JobData) :
    (save_job_to_db db jd).2.user_jobs = db.user_jobs := by
  simp only [save_job_to_db]
  split <;> rfl

/-- Existing posting rows survive a save. -/
lemma save_job_to_db_jobs_mono (db : DB) (jd : JobData) {r : JobRec}
    (h : r ∈ db.jobs) : r ∈ (save_job_to_db db jd).2.jobs := by
  simp only [save_job_to_db]
  split
  · exact h
  · exact List.mem_append_left _ h

/-- The two outcomes of `save_job_to_db`: the `INSERT OR IGNORE` was
ignored (store unchanged; the returned id, when any, belongs to a stored
row with this URL) or a fresh row with this URL was appended. -/
lemma save_job_to_db_cases (db : DB) (jd : JobData) :
    ((save_job_to_db db jd).2 = db
      ∧ ((save_job_to_db db jd).1 = none
         ∨ ∃ i, (save_job_to_db db jd).1 = some i
             ∧ ∃ r ∈ db.jobs, r.jid = i ∧ r.job_url = jd.job_url))
    ∨ (∃ r, (save_job_to_db db jd).2.jobs = db.jobs ++ [r]
        ∧ r.jid = db.nextId ∧ r.job_url = jd.job_url
        ∧ (save_job_to_db db jd).1 = some db.nextId
        ∧ (save_job_to_db db jd).2.user_jobs = db.user_jobs) := by
  by_cases hc : db.jobs.any (fun j => j.external_id == jd.external_id &&
      j.site_source == jd.site_source) = true
  · left
    simp only [save_job_to_db, if_pos hc]
    refine ⟨trivial, ?_⟩
    cases he : get_existing_job_id db jd.job_url with
    | none => exact Or.inl rfl
    | some i => exact Or.inr ⟨i, rfl, get_existing_some db jd.job_url he⟩
  · right
    simp only [save_job_to_db, if_neg hc]
    exact ⟨{ jid := db.nextId, external_id := jd.external_id, title := jd.title,
             company := jd.company, location := jd.location,
             salary_min := jd.salary_min, salary_max := jd.salary_max,
             job_url := jd.job_url, description := jd.description,
             site_source := jd.site_source, quality_score := jd.quality_score,
             posted_date := jd.posted_date }, rfl, rfl, rfl, trivial, trivial⟩

/-- The non-skipping branch of the per-row loop, written as its final
case split on the returned posting id. -/
lemma saveJobStep_eq_of_none (u : String) (db : DB) (job : JobRow)
    (hurl : (job.job_url == "") = false)
    (hst : get_user_job_status db u job.job_url = none) :
    saveJobStep u db job =
      match (save_job_to_db db (jobDataOfRow job)).1 with
      | none => (none, (save_job_to_db db (jobDataOfRow job)).2)
      | some i => (some job,
          (create_user_job_relationship (save_job_to_db db (jobDataOfRow job)).2
            u i job.quality_score).2) := by
  simp only [saveJobStep, hurl, Bool.false_eq_true, if_false, hst]
  cases h1 : (save_job_to_db db (jobDataOfRow job)).1 with
  | none => simp
  | some i => simp [create_rel_fst]

/-- Each per-row step only grows the two tables. -/
lemma saveJobStep_mono (u : String) (db : DB) (job : JobRow) :
    (∀ j ∈ db.jobs, j ∈ (saveJobStep u db job).2.jobs)
    ∧ ∀ uj ∈ db.user_jobs, uj ∈ (saveJobStep u db job).2.user_jobs := by
  by_cases hurl : (job.job_url == "") = true
  · simp [saveJobStep, hurl]
  · have hurl' : (job.job_url == "") = false := by simpa using hurl
    cases hst : get_user_job_status db u job.job_url with
    | some x =>
      simp [saveJobStep, hurl', hst]
    | none =>
      rw [saveJobStep_eq_of_none u db job hurl' hst]
      cases h1 : (save_job_to_db db (jobDataOfRow job)).1 with
      | none =>
        refine ⟨fun j hj => save_job_to_db_jobs_mono db _ hj, fun uj huj => ?_⟩
        rw [save_job_to_db_user_jobs]
        exact huj
      | some i =>
        constructor
        · intro j hj
          rw [create_rel_jobs]
          exact save_job_to_db_jobs_mono db _ hj
        · intro uj huj
          apply create_rel_user_jobs_mono
          rw [save_job_to_db_user_jobs]
          exact huj

/-- The dedup query only improves when the tables grow. -/
lemma status_mono {db db2 : DB} (u url : String)
    (hjobs : ∀ j ∈ db.jobs, j ∈ db2.jobs)
    (hlinks : ∀ uj ∈ db.user_jobs, uj ∈ db2.user_jobs)
    (h : (get_user_job_status db u url).isSome = true) :
    (get_user_job_status db2 u url).isSome = true := by
  rw [get_user_job_status_isSome_iff] at h ⊢
  obtain ⟨uj, h1, h2, j, h3, h4, h5⟩ := h
  exact ⟨uj, hlinks uj h1, h2, j, hjobs j h3, h4, h5⟩

/-- After a per-row step, either nothing happened or the store now joins a
link for this user to this row's URL; moreover the jobs table grew by at
most the row's own posting. -/
lemma saveJobStep_cases (u : String) (db : DB) (job : JobRow) :
    saveJobStep u db job = (none, db)
    ∨ ((get_user_job_status (saveJobStep u db job).2 u job.job_url).isSome = true
       ∧ ((saveJobStep u db job).2.jobs = db.jobs
          ∨ ∃ r, (saveJobStep u db job).2.jobs = db.jobs ++ [r]
              ∧ r.job_url = job.job_url)) := by
  by_cases hurl : (job.job_url == "") = true
  · left
    simp [saveJobStep, hurl]
  · have hurl' : (job.job_url == "") = false := by simpa using hurl
    cases hst : get_user_job_status db u job.job_url with
    | some x =>
      left
      simp [saveJobStep, hurl', hst]
    | none =>
      rw [saveJobStep_eq_of_none u db job hurl' hst]
      rcases save_job_to_db_cases db (jobDataOfRow job) with
        ⟨h2, hnone | ⟨i, hi, r, hrmem, hjid, hurlr⟩⟩ | ⟨r, happ, hjid, hurlr, hfst, huj⟩
      · left
        rw [hnone, h2]
      · right
        rw [hi]
        constructor
        · rw [get_user_job_status_isSome_iff]
          obtain ⟨uj, hujmem, hu, hj⟩ :=
            create_rel_hasLink (save_job_to_db db (jobDataOfRow job)).2 u i job.quality_score
          refine ⟨uj, hujmem, hu, r, ?_, by rw [hjid, hj], hurlr⟩
          rw [create_rel_jobs, h2]
          exact hrmem
        · left
          rw [create_rel_jobs, h2]
      · right
        rw [hfst]
        constructor
        · rw [get_user_job_status_isSome_iff]
          obtain ⟨uj, hujmem, hu, hj⟩ :=
            create_rel_hasLink (save_job_to_db db (jobDataOfRow job)).2 u db.nextId job.quality_score
          refine ⟨uj, hujmem, hu, r, ?_, by rw [hjid, hj], hurlr⟩
          rw [create_rel_jobs, happ]
          exact List.mem_append_right _ (List.mem_singleton_self r)
        · right
          refine ⟨r, ?_, hurlr⟩
          rw [create_rel_jobs, happ]

/-- Dissecting a step that changed nothing at a fresh URL: the posting
insert must have been ignored over a conflicting `(external_id,
site_source)` row while no stored row carries the URL itself. -/
lemma saveJobStep_none_self (u : String) (db : DB) (job : JobRow)
    (hurl : (job.job_url == "") = false)
    (hst : get_user_job_status db u job.job_url = none)
    (hskip : saveJobStep u db job = (none, db)) :
    db.jobs.any (fun r => r.external_id == job.job_url &&
        r.site_source == job.site_source) = true
    ∧ get_existing_job_id db job.job_url = none := by
  rw [saveJobStep_eq_of_none u db job hurl hst] at hskip
  cases h1 : (save_job_to_db db (jobDataOfRow job)).1 with
  | some i =>
    rw [h1] at hskip
    simp at hskip
  | none =>
    rw [h1] at hskip
    simp only [save_job_to_db, jobDataOfRow] at h1
    by_cases hc : db.jobs.any (fun r => r.external_id == job.job_url &&
        r.site_source == job.site_source) = true
    · rw [if_pos hc] at h1
      exact ⟨hc, h1⟩
    · rw [if_neg hc] at h1
      simp at h1

/-- A row the loop skipped without touching the store keeps being skipped
after any later row of the same user's run is processed. -/
lemma saveJobStep_skip_stable (u : String) (db : DB) (j j' : JobRow)
    (hskip : saveJobStep u db j = (none, db)) :
    saveJobStep u (saveJobStep u db j').2 j = (none, (saveJobStep u db j').2) := by
  by_cases hurl : (j.job_url == "") = true
  · exact saveJobStep_url_empty u _ j (by simpa using hurl)
  · have hurl' : (j.job_url == "") = false := by simpa using hurl
    by_cases hst2 : (get_user_job_status (saveJobStep u db j').2 u j.job_url).isSome = true
    · exact saveJobStep_of_isSome u _ j hst2
    · have hmono := saveJobStep_mono u db j'
      have hst : get_user_job_status db u j.job_url = none := by
        cases hq : get_user_job_status db u j.job_url with
        | none => rfl
        | some x =>
          exact absurd (status_mono u j.job_url hmono.1 hmono.2 (by simp [hq])) hst2
      obtain ⟨hconf, hex⟩ := saveJobStep_none_self u db j hurl' hst hskip
      have hconf2 : (saveJobStep u db j').2.jobs.any
          (fun r => r.external_id == j.job_url && r.site_source == j.site_source) = true := by
        obtain ⟨r, hrmem, hrp⟩ := List.any_eq_true.mp hconf
        exact List.any_eq_true.mpr ⟨r, hmono.1 r hrmem, hrp⟩
      have hfindnone : db.jobs.find? (fun jj => jj.job_url == j.job_url) = none := by
        cases hf : db.jobs.find? (fun jj => jj.job_url == j.job_url) with
        | none => rfl
        | some x =>
          unfold get_existing_job_id at hex
          rw [hf] at hex
          simp at hex
      have hex2 : get_existing_job_id (saveJobStep u db j').2 j.job_url = none := by
        rcases saveJobStep_cases u db j' with hskip' | ⟨hsome', hdelta⟩
        · rw [hskip']
          exact hex
        · rcases hdelta with hsame | ⟨r, happ, hurlr⟩
          · unfold get_existing_job_id at hex ⊢
            rw [hsame]
            exact hex
          · by_cases hru : (r.job_url == j.job_url) = true
            · have hju : j'.job_url = j.job_url := by
                rw [← hurlr]
                simpa using hru
              exact absurd (hju ▸ hsome') hst2
            · unfold get_existing_job_id
              rw [happ, List.find?_append, hfindnone]
              simp [List.find?, hru]
      have hst2' : get_user_job_status (saveJobStep u db j').2 u j.job_url = none := by
        cases hq : get_user_job_status (saveJobStep u db j').2 u j.job_url with
        | none => rfl
        | some x => exact absurd (by simp [hq]) hst2
      rw [saveJobStep_eq_of_none u _ j hurl' hst2']
      have hsv : save_job_to_db (saveJobStep u db j').2 (jobDataOfRow j)
          = (none, (saveJobStep u db j').2) := by
        simp only [save_job_to_db, jobDataOfRow]
        rw [if_pos hconf2, hex2]
      rw [hsv]

/-- Replaying a row right after its own step is a no-op. -/
lemma saveJobStep_idem (u : String) (db : DB) (j : JobRow) :
    saveJobStep u (saveJobStep u db j).2 j = (none, (saveJobStep u db j).2) := by
  rcases saveJobStep_cases u db j with h | ⟨hsome, -⟩
  · have h2 : (saveJobStep u db j).2 = db := by rw [h]
    rw [h2]
    exact h
  · exact saveJobStep_of_isSome u _ j hsome

/-- The store threaded through a run is the store threaded through its
tail after the head's step. -/
lemma save_snd_cons (u : String) (r : JobRow) (rs : List JobRow) (db : DB) :
    (save_jobs_for_user u (r :: rs) db).2
      = (save_jobs_for_user u rs (saveJobStep u db r).2).2 := by
  simp only [save_jobs_for_user]
  cases h : (saveJobStep u db r).1 <;> simp

/-- A skipped-in-place row stays skipped across a whole run. -/
lemma save_skip_stable (u : String) :
    ∀ (rows : List JobRow) (db : DB) (j : JobRow),
      saveJobStep u db j = (none, db) →
      saveJobStep u (save_jobs_for_user u rows db).2 j
        = (none, (save_jobs_for_user u rows db).2) := by
  intro rows
  induction rows with
  | nil =>
    intro db j h
    simpa [save_jobs_for_user] using h
  | cons r rs ih =>
    intro db j h
    rw [save_snd_cons]
    exact ih _ j (saveJobStep_skip_stable u db j r h)

/-- A run in which every row is skipped in place returns the empty
net-new set and the unchanged store. -/
lemma save_all_skipped (u : String) :
    ∀ (rows : List JobRow) (db : DB),
      (∀ j ∈ rows, saveJobStep u db j = (none, db)) →
      save_jobs_for_user u rows db = ([], db) := by
  intro rows
  induction rows with
  | nil => intro db _; rfl
  | cons r rs ih =>
    intro db h
    have hr := h r (List.mem_cons_self r rs)
    simp only [save_jobs_for_user, hr]
    rw [ih db (fun j hj => h j (List.mem_cons_of_mem r hj))]

/-- After a run, every row of that run is skipped in place by a fresh
step. -/
lemma save_skipped_after (u : String) :
    ∀ (rows : List JobRow) (db : DB) (j : JobRow), j ∈ rows →
      saveJobStep u (save_jobs_for_user u rows db).2 j
        = (none, (save_jobs_for_user u rows db).2) := by
  intro rows
  induction rows with
  | nil =>
    intro db j h
    exact absurd h (List.not_mem_nil j)
  | cons r rs ih =>
    intro db j hj
    rw [save_snd_cons]
    rcases List.mem_cons.mp hj with rfl | hmem
    · exact save_skip_stable u rs _ j (saveJobStep_idem u db j)
    · exact ih _ j hmem

/-- Claim C1: running the dedup-and-notify tail of a user cycle a second
time on the same upstream result set, from the store the first run left
behind, returns an empty net-new set, changes no `jobs` or `user_jobs`
row, and never invokes the notification dispatcher — every posting
already linked to the user is skipped by the dedup check. -/
theorem c1_second_cycle_is_noop (u : String) (rows : List JobRow) (db : DB)
    (cfg1 ok1 cfg2 ok2 : Bool) :
    (runDedupNotify u rows (runDedupNotify u rows db cfg1 ok1).2.1 cfg2 ok2).1 = []
    ∧ (runDedupNotify u rows (runDedupNotify u rows db cfg1 ok1).2.1 cfg2 ok2).2.1
        = (runDedupNotify u rows db cfg1 ok1).2.1
    ∧ (runDedupNotify u rows (runDedupNotify u rows db cfg1 ok1).2.1 cfg2 ok2).2.2
        = false := by
  rw [runDedupNotify_db u rows db cfg1 ok1]
  have hsave2 : save_jobs_for_user u rows (save_jobs_for_user u rows db).2
      = ([], (save_jobs_for_user u rows db).2) :=
    save_all_skipped u rows _ (fun j hj => save_skipped_after u rows db j hj)
  refine ⟨?_, ?_, ?_⟩ <;> simp [runDedupNotify, hsave2]

end JobSprint
